import Mathlib

/-!
Shallow embedding of the example-resolution engine of the openapi-mocker
repository (src/openapi/spec.rs and src/spec.rs), together with theorems
settling the frozen claims about it.

Strings are modelled as lists of characters (`Str`); the Rust string
splitting, prefix trimming and HashMap operations are reimplemented over
that representation, following the source functions line by line.
-/

namespace OpenapiMocker

/-- Character-list model of Rust `&str` / `String` values. -/
abbrev Str := List Char

/-- Stand-in for `serde_json::Value`: the engine never inspects the
structure of an example value, it only moves values around, so an opaque
token type suffices. -/
abbrev Val := Nat

/-- Model of `str::split(c)`: splits on every occurrence of the separator,
keeping empty pieces, and yields at least one piece (Rust `split` always
yields at least one item). -/
def splitChar (c : Char) : Str → List Str
  | [] => [[]]
  | x :: xs =>
    match splitChar c xs with
    | [] => [[]]
    | a :: as => if x = c then [] :: a :: as else (x :: a) :: as

theorem splitChar_ne_nil (c : Char) (s : Str) : splitChar c s ≠ [] := by
  cases s with
  | nil => simp [splitChar]
  | cons x xs =>
    simp only [splitChar]
    cases h : splitChar c xs with
    | nil => simp
    | cons a as =>
      by_cases hx : x = c <;> simp [hx]

/-- Model of `HashMap::insert` on an association list with unique keys:
replace the value if the key is present, append otherwise. -/
def hmInsert (m : List (Str × Str)) (k v : Str) : List (Str × Str) :=
  if m.any (fun p => p.1 = k) then
    m.map (fun p => if p.1 = k then (k, v) else p)
  else m ++ [(k, v)]

/-- Model of map lookup (`HashMap::get` / `BTreeMap::get`): value of the
first entry with the given key. -/
def hmGet {α : Type} (m : List (Str × α)) (k : Str) : Option α :=
  (m.find? (fun p => decide (p.1 = k))).map (fun p => p.2)

/-- One `key=value` pair as parsed in `QueryString::from_request` and
`QueryString::match_example`: `split('=')` then
`(next().unwrap(), next().unwrap_or(""))`. The `none` branch models the
panic of the first `unwrap`; `pairToKV_isSome` shows it is unreachable. -/
def pairToKV (pair : Str) : Option (Str × Str) :=
  match splitChar '=' pair with
  | [] => none
  | k :: rest => some (k, rest.headD [])

theorem pairToKV_isSome (pair : Str) : ∃ kv, pairToKV pair = some kv := by
  unfold pairToKV
  cases h : splitChar '=' pair with
  | nil => exact absurd h (splitChar_ne_nil '=' pair)
  | cons k rest => exact ⟨(k, rest.headD []), rfl⟩

/-- Parse every `&`-separated piece of a query string into a key/value
pair; `none` models a panic in one of the pairs (unreachable). -/
def parsePairs : List Str → Option (List (Str × Str))
  | [] => some []
  | pr :: rest =>
    match pairToKV pr, parsePairs rest with
    | some kv, some l => some (kv :: l)
    | _, _ => none

theorem parsePairs_isSome (l : List Str) : ∃ ps, parsePairs l = some ps := by
  induction l with
  | nil => exact ⟨[], rfl⟩
  | cons pr rest ih =>
    obtain ⟨kv, hkv⟩ := pairToKV_isSome pr
    obtain ⟨ps, hps⟩ := ih
    exact ⟨kv :: ps, by simp [parsePairs, hkv, hps]⟩

/-- Accumulate parsed pairs into the params map by successive
`HashMap::insert` calls (later occurrences of a key overwrite earlier
ones), as both `from_request` and `match_example` do. -/
def buildParams (pairs : List (Str × Str)) : List (Str × Str) :=
  pairs.foldl (fun m kv => hmInsert m kv.1 kv.2) []

/-- `QueryString::from_request`: split the raw query string on `&`, parse
each pair, insert all pairs into a map. `none` models the `unwrap` panic
(unreachable, see `from_requestO_isSome`). -/
def from_requestO (q : Str) : Option (List (Str × Str)) :=
  (parsePairs (splitChar '&' q)).map buildParams

theorem from_requestO_isSome (q : Str) :
    ∃ ps, from_requestO q = some ps := by
  obtain ⟨ps, hps⟩ := parsePairs_isSome (splitChar '&' q)
  exact ⟨buildParams ps, by simp [from_requestO, hps]⟩

/-- Total projection of `from_requestO`; by `from_requestO_isSome` the
default branch is dead. -/
def from_request (q : Str) : List (Str × Str) :=
  (from_requestO q).getD []

theorem from_requestO_eq (q : Str) :
    from_requestO q = some (from_request q) := by
  obtain ⟨ps, hps⟩ := from_requestO_isSome q
  simp [from_request, hps]

/-- The reserved marker for structured query examples. -/
def queryMarker : Str := "query:".toList

/-- One step of Rust `str::trim_start_matches("query:")` iterated with
explicit fuel: drop the marker while it is a prefix. Each step removes six
characters, so fuel `s.length` strictly exceeds the number of possible
steps and the function computes the true fixpoint. -/
def trimQAux : Nat → Str → Str
  | 0, s => s
  | n + 1, s =>
    if queryMarker.isPrefixOf s then trimQAux n (s.drop queryMarker.length)
    else s

/-- `str::trim_start_matches("query:")`: removes every leading repetition
of the marker. -/
def trimQueryMarker (s : Str) : Str := trimQAux s.length s

/-- `QueryString::match_example`: an example name matches only if it
starts with the `query:` marker; then the name (with all leading markers
trimmed) is parsed as `&`-joined `key=value` pairs into a map, and every
entry of the request params map must be present in that map with an equal
value. `none` models the `unwrap` panic inside the pair parsing
(unreachable, see `match_exampleO_eq`). -/
def match_exampleO (reqParams : List (Str × Str)) (example_name : Str) :
    Option Bool :=
  if queryMarker.isPrefixOf example_name then
    match parsePairs (splitChar '&' (trimQueryMarker example_name)) with
    | none => none
    | some prs =>
      some (reqParams.all fun kv =>
        decide (hmGet (buildParams prs) kv.1 = some kv.2))
  else some false

/-- Total projection of `match_exampleO`; the default branch is dead. -/
def match_example (reqParams : List (Str × Str)) (example_name : Str) :
    Bool :=
  (match_exampleO reqParams example_name).getD false

theorem match_exampleO_eq (reqParams : List (Str × Str)) (name : Str) :
    match_exampleO reqParams name = some (match_example reqParams name) := by
  unfold match_example match_exampleO
  by_cases h : queryMarker.isPrefixOf name
  · obtain ⟨ps, hps⟩ := parsePairs_isSome (splitChar '&' (trimQueryMarker name))
    simp [h, hps]
  · simp [h]

/-- Opening brace character (the template parameter delimiter). -/
def openBrace : Char := Char.ofNat 123

/-- Closing brace character. -/
def closeBrace : Char := Char.ofNat 125

/-- A route segment that is a parameter placeholder:
`r.starts_with('{') && r.ends_with('}')`. -/
def isPlaceholder (r : Str) : Bool :=
  decide (r.head? = some openBrace) && decide (r.getLast? = some closeBrace)

/-- Split a path on `/` and discard empty segments, as `match_url` does
for both the request url and each route. -/
def segments (s : Str) : List Str :=
  (splitChar '/' s).filter (fun seg => decide (seg ≠ []))

/-- `match_url`: a url matches a route when the non-empty segment lists
have equal length and at every position the route segment is a
placeholder or the two segments are equal; any route in the list may
match. -/
def match_url (url : Str) (routes : List Str) : Bool :=
  let url_parts := segments url
  routes.any fun route =>
    let route_parts := segments route
    decide (url_parts.length = route_parts.length) &&
      (route_parts.zip url_parts).all fun ru =>
        isPlaceholder ru.1 || decide (ru.1 = ru.2)

/-- `oas3::spec::Example`: only the `value` field is read by the engine. -/
structure ExampleObj where
  value : Option Val
deriving DecidableEq

/-- `oas3::spec::ObjectOrReference<T>`: an inline object or a named
reference into the component registry. -/
inductive ObjOrRef (α : Type) where
  | obj (o : α)
  | ref (ref_path : Str)
deriving DecidableEq

/-- `oas3::spec::Schema`: only the `example` field is read (by
`load_example` in src/spec.rs, through `schema.resolve(..).example`). The
field is named `exampleValue` because `example` is a Lean keyword. -/
structure SchemaObj where
  exampleValue : Option Val
deriving DecidableEq

/-- `oas3::spec::MediaTypeExamples`: either a single literal example value
(`Example` variant, modelled by `single`) or a named example collection
(`Examples` variant, modelled by `examples`, a map from example name to an
Example-or-Reference, given in iteration order). -/
inductive MediaTypeExamples where
  | single (ex : Val)
  | examples (examples : List (Str × ObjOrRef ExampleObj))
deriving DecidableEq

/-- `oas3::spec::MediaType`: the `schema` and `examples` fields. -/
structure MediaType where
  schema : Option (ObjOrRef SchemaObj)
  examples : Option MediaTypeExamples
deriving DecidableEq

/-- `oas3::spec::Response`: map from content-type string to MediaType. -/
structure Response where
  content : List (Str × MediaType)
deriving DecidableEq

/-- `oas3::spec::Operation`: map from status-code string to a
Response-or-Reference, in iteration order. -/
structure Operation where
  responses : List (Str × ObjOrRef Response)
deriving DecidableEq

/-- `oas3::spec::PathItem`: one optional Operation per HTTP verb. -/
structure PathItem where
  get : Option Operation := none
  put : Option Operation := none
  post : Option Operation := none
  delete : Option Operation := none
  options : Option Operation := none
  head : Option Operation := none
  patch : Option Operation := none
  trace : Option Operation := none
deriving DecidableEq

/-- `oas3::spec::Components`: the component registry maps consulted when
resolving references. -/
structure Components where
  responses : List (Str × ObjOrRef Response)
  examples : List (Str × ObjOrRef ExampleObj)
  schemas : List (Str × ObjOrRef SchemaObj)
deriving DecidableEq

/-- `oas3::OpenApiV3Spec`: the paths map and the optional components. -/
structure Spec where
  paths : List (Str × PathItem)
  components : Option Components
deriving DecidableEq

/-- Lookup in the component responses registry (`components.responses`),
absent when the document has no components. -/
def componentResponsesGet (spec : Spec) (k : Str) :
    Option (ObjOrRef Response) :=
  spec.components.bind fun c => hmGet c.responses k

/-- Lookup in the component examples registry. -/
def componentExamplesGet (spec : Spec) (k : Str) :
    Option (ObjOrRef ExampleObj) :=
  spec.components.bind fun c => hmGet c.examples k

/-- Lookup in the component schemas registry. -/
def componentSchemasGet (spec : Spec) (k : Str) :
    Option (ObjOrRef SchemaObj) :=
  spec.components.bind fun c => hmGet c.schemas k

/-- `load_path`: find the first path template whose `match_url` accepts
the request path and return its PathItem. -/
def load_path (path : Str) (spec : Spec) : Option PathItem :=
  (spec.paths.find? fun kv => match_url path [kv.1]).map fun kv => kv.2

/-- `load_method`: select the operation for the (already lowercased)
method token; unknown token yields `none`. -/
def load_method (method : Str) (p : PathItem) : Option Operation :=
  if method = "get".toList then p.get
  else if method = "put".toList then p.put
  else if method = "post".toList then p.post
  else if method = "delete".toList then p.delete
  else if method = "options".toList then p.options
  else if method = "head".toList then p.head
  else if method = "patch".toList then p.patch
  else if method = "trace".toList then p.trace
  else none

/-- `load_responses`: collect every Response-or-Reference of the
operation, for all status codes, in iteration order; always succeeds. -/
def load_responses (op : Operation) : Option (List (ObjOrRef Response)) :=
  some (op.responses.map fun kv => kv.2)

/-- `extract_response`: an inline Response is returned as is; a reference
is looked up in `components.responses` and the result extracted
recursively. The source recursion has no depth guard, so it is modelled
with fuel: the result `none` means the recursion did not finish within
`fuel` unfoldings (on a cyclic registry no fuel suffices, see the C3
theorem); `some r` means the source returns `r`. -/
def extract_response (spec : Spec) : Nat → ObjOrRef Response →
    Option (Option Response)
  | 0, _ => none
  | _ + 1, .obj r => some (some r)
  | n + 1, .ref p =>
    match componentResponsesGet spec p with
    | none => some none
    | some r => extract_response spec n r

/-- `load_examples`: for each response, extract it, look up the MediaType
for the media type key, and collect its `examples` when present. The
outer `none` propagates fuel exhaustion of `extract_response`; at the
source level the function always returns `Some`. -/
def load_examples (spec : Spec) (media_type : Str) (fuel : Nat) :
    List (ObjOrRef Response) → Option (List MediaTypeExamples)
  | [] => some []
  | r :: rest =>
    match extract_response spec fuel r with
    | none => none
    | some res =>
      match load_examples spec media_type fuel rest with
      | none => none
      | some es =>
        match (res.bind fun resp => hmGet resp.content media_type).bind
            (fun content => content.examples) with
        | some m => some (m :: es)
        | none => some es

/-- The reserved fallback example name. -/
def defaultName : Str := "default".toList

/-- The inner loop of `find_example_match` over one named example
collection: the first entry whose name equals the request path, or whose
name is a matching structured query name, is returned immediately
(`Sum.inl`); otherwise an entry literally named `default` replaces the
remembered default, and the scan ends with the updated default
(`Sum.inr`). -/
def scanEntries (path : Str) (reqParams : List (Str × Str)) :
    List (Str × ObjOrRef ExampleObj) → Option (ObjOrRef ExampleObj) →
    Sum (ObjOrRef ExampleObj) (Option (ObjOrRef ExampleObj))
  | [], dflt => .inr dflt
  | (example_name, e) :: rest, dflt =>
    if example_name = path then .inl e
    else if match_example reqParams example_name then .inl e
    else
      scanEntries path reqParams rest
        (if example_name = defaultName then some e else dflt)

/-- The outer loop of `find_example_match` over the collected
MediaTypeExamples values: single literal examples fall into the `_ => {}`
arm and are skipped; named collections are scanned with `scanEntries`,
and the remembered default is threaded through; if no entry was returned
the final default is the result. -/
def findLoop (path : Str) (reqParams : List (Str × Str)) :
    List MediaTypeExamples → Option (ObjOrRef ExampleObj) →
    Option (ObjOrRef ExampleObj)
  | [], dflt => dflt
  | .single _ :: rest, dflt => findLoop path reqParams rest dflt
  | .examples es :: rest, dflt =>
    match scanEntries path reqParams es dflt with
    | .inl e => some e
    | .inr dflt2 => findLoop path reqParams rest dflt2

/-- `find_example_match`: scan all example collections with an initially
empty default. -/
def find_example_match (path : Str) (reqParams : List (Str × Str))
    (examples : List MediaTypeExamples) : Option (ObjOrRef ExampleObj) :=
  findLoop path reqParams examples none

/-- Modelled from the spec: section 4.5 Reference Resolver. The generic
`ObjectOrReference::resolve` of the oas3 library (code outside this
repository) follows a named reference through the given registry lookup,
recursing while the target is itself a reference, bounded by a maximum
depth; exceeding the depth yields `none`. -/
def resolveRefM {α : Type} (lookup : Str → Option (ObjOrRef α)) :
    Nat → ObjOrRef α → Option α
  | 0, _ => none
  | _ + 1, .obj a => some a
  | n + 1, .ref p => (lookup p).bind (resolveRefM lookup n)

/-- Modelled from the spec: the maximum reference-chain depth (a small
constant, the spec suggests 8). -/
def resolveDepth : Nat := 8

/-- Modelled from the spec: resolution of an Example-or-Reference through
the component examples registry (`Example::resolve` in the oas3 library,
outside this repository). -/
def resolveExampleM (spec : Spec) (e : ObjOrRef ExampleObj) :
    Option ExampleObj :=
  resolveRefM (componentExamplesGet spec) resolveDepth e

/-- Modelled from the spec: resolution of a Response-or-Reference through
the component responses registry (`Response::resolve` in the oas3
library, outside this repository). -/
def resolveResponseM (spec : Spec) (r : ObjOrRef Response) :
    Option Response :=
  resolveRefM (componentResponsesGet spec) resolveDepth r

/-- Modelled from the spec: resolution of a Schema-or-Reference through
the component schemas registry (`Schema::resolve` in the oas3 library,
outside this repository). -/
def resolveSchemaM (spec : Spec) (s : ObjOrRef SchemaObj) :
    Option SchemaObj :=
  resolveRefM (componentSchemasGet spec) resolveDepth s

/-- ASCII lowercasing of the method token
(`req.method().as_str().to_lowercase()`). -/
def lowerStr (s : Str) : Str := s.map Char.toLower

/-- The single configured media type of `Spec::get_example`. -/
def mediaTypeJson : Str := "application/json".toList

/-- `Spec::get_example` (src/openapi/spec.rs): parse the query string,
then chain `load_path`, `load_method`, `load_responses`,
`load_examples`, `find_example_match`, resolve the selected example
(failure degrades to `None` via `.ok()`), and project its `value`. The
outer Option separates divergence or panic (`none`, never reached on
acyclic documents, see the C10 theorem) from the Option the source
returns (`some r`). -/
def getExampleF (spec : Spec) (fuel : Nat)
    (path method queryString : Str) : Option (Option Val) :=
  match from_requestO queryString with
  | none => none
  | some reqParams =>
    match load_path path spec with
    | none => some none
    | some pitem =>
      match load_method (lowerStr method) pitem with
      | none => some none
      | some op =>
        match load_responses op with
        | none => some none
        | some rs =>
          match load_examples spec mediaTypeJson fuel rs with
          | none => none
          | some mtes =>
            match find_example_match path reqParams mtes with
            | none => some none
            | some ex =>
              match resolveExampleM spec ex with
              | none => some none
              | some e => some e.value

/-- Decimal string form of a status code (`status.to_string()`). -/
def natToStr (n : Nat) : Str := Nat.toDigits 10 n

/-- `load_response` (src/spec.rs): look up the response under the decimal
string form of the status code; absence is an error, and a failed
resolution of the found Response-or-Reference is the same error. -/
def load_response (spec : Spec) (op : Operation) (status : Nat) :
    Except String Response :=
  match hmGet op.responses (natToStr status) with
  | none => .error "Response not found"
  | some oor =>
    match resolveResponseM spec oor with
    | some r => .ok r
    | none => .error "Response not found"

/-- `load_example` (src/spec.rs): look up the MediaType for the content
type, then the schema, resolve it and project the schema example. Each
`.error` models one of the three `expect` panics of the source; the
successful result is the `Option` the source returns. -/
def load_example (spec : Spec) (response : Response) (content_type : Str) :
    Except String (Option Val) :=
  match hmGet response.content content_type with
  | none => .error "Content not found"
  | some mt =>
    match mt.schema with
    | none => .error "Schema not found"
    | some sor =>
      match resolveSchemaM spec sor with
      | none => .error "Failed to resolve schema"
      | some sch => .ok sch.exampleValue

/-! ## Claim theorems -/

/-- The pair set encoded in a `query:`-prefixed example name, exactly as
`match_example` computes it: trim the marker, split on `&` and `=`, and
build the map with last-occurrence-wins inserts. -/
def exampleQuerySet (name : Str) : List (Str × Str) :=
  buildParams ((parsePairs (splitChar '&' (trimQueryMarker name))).getD [])

/-- C1 counterexample: the claim asserts that request query
`page=1&limit=5` matches example `query:page=1` because every pair of the
example set occurs in the request. The second conjunct checks that the
claim's condition holds at this input (the example pair `page=1` occurs
in the request with an equal value); the first conjunct shows the code
nevertheless rejects the match, because the extra request parameter
`limit=5` is absent from the example set. -/
theorem c1_counterexample :
    match_example (from_request "page=1&limit=5".toList)
        "query:page=1".toList = false ∧
      ∀ kv ∈ exampleQuerySet "query:page=1".toList,
        hmGet (from_request "page=1&limit=5".toList) kv.1 = some kv.2 := by
  decide

/-- C1 amended: structured query matching is a subset match in the
request-to-example direction. A `query:`-prefixed example name matches
exactly when every entry of the request parameter map occurs with an
equal value in the example's pair set; extra pairs in the example set are
ignored, while a request parameter missing from the example set excludes
the match. -/
theorem c1_query_match_direction (reqParams : List (Str × Str))
    (name : Str) (h : queryMarker.isPrefixOf name = true) :
    match_example reqParams name = true ↔
      ∀ kv ∈ reqParams, hmGet (exampleQuerySet name) kv.1 = some kv.2 := by
  obtain ⟨ps, hps⟩ := parsePairs_isSome (splitChar '&' (trimQueryMarker name))
  simp [match_example, match_exampleO, h, hps, exampleQuerySet,
    List.all_eq_true]

/-- C1 witness: request `page=1` matches example `query:page=1&limit=5`
(extra example pair ignored), through the amended theorem. -/
theorem c1_query_match_direction_witness :
    match_example (from_request "page=1".toList)
      "query:page=1&limit=5".toList = true :=
  (c1_query_match_direction (from_request "page=1".toList)
    "query:page=1&limit=5".toList (by decide)).mpr (by decide)

/-- Auxiliary characterization of the segmentwise check of `match_url`:
the length test plus the zipped placeholder-or-equal test succeed exactly
when the segment lists have equal length and every position is a
placeholder or equal. -/
theorem segsCheck_iff : ∀ (rs us : List Str),
    (decide (us.length = rs.length) &&
       (rs.zip us).all fun ru => isPlaceholder ru.1 || decide (ru.1 = ru.2))
        = true ↔
      (rs.length = us.length ∧
        ∀ i (hr : i < rs.length) (hu : i < us.length),
          isPlaceholder (rs.get ⟨i, hr⟩) = true ∨
            rs.get ⟨i, hr⟩ = us.get ⟨i, hu⟩) := by
  intro rs
  induction rs with
  | nil =>
    intro us
    cases us with
    | nil => simp
    | cons u us' => simp
  | cons r rs' ih =>
    intro us
    cases us with
    | nil => simp
    | cons u us' =>
      simp only [List.zip_cons_cons, List.all_cons, Bool.and_eq_true,
        decide_eq_true_eq, List.length_cons, Bool.or_eq_true]
      constructor
      · rintro ⟨hlen, hhead, htail⟩
        have ih' := (ih us').mp
          (by simp only [Bool.and_eq_true, decide_eq_true_eq]
              exact ⟨by omega, htail⟩)
        refine ⟨by omega, ?_⟩
        intro i hr hu
        cases i with
        | zero => simpa using hhead
        | succ j =>
          exact ih'.2 j (Nat.lt_of_succ_lt_succ hr)
            (Nat.lt_of_succ_lt_succ hu)
      · rintro ⟨hlen, hpos⟩
        refine ⟨by omega, ?_, ?_⟩
        · simpa using hpos 0 (Nat.succ_pos _) (Nat.succ_pos _)
        · have ih' := (ih us').mpr
            ⟨by omega, fun j hr hu =>
              hpos (j + 1) (Nat.succ_lt_succ hr) (Nat.succ_lt_succ hu)⟩
          rw [Bool.and_eq_true] at ih'
          exact ih'.2

/-- C4: path matching. A url matches a path template exactly when, after
splitting both on `/` and discarding empty segments, the segment counts
are equal and at every position the template segment is a brace-wrapped
placeholder or the two segments are exactly equal (character-exact, hence
case-sensitive and without percent-decoding). -/
theorem c4_path_matching (url route : Str) :
    match_url url [route] = true ↔
      ((segments route).length = (segments url).length ∧
        ∀ i (hr : i < (segments route).length)
            (hu : i < (segments url).length),
          isPlaceholder ((segments route).get ⟨i, hr⟩) = true ∨
            (segments route).get ⟨i, hr⟩ = (segments url).get ⟨i, hu⟩) := by
  have h := segsCheck_iff (segments route) (segments url)
  simpa [match_url] using h

/-- A document with no paths and no components. -/
def emptySpec : Spec := ⟨[], none⟩

/-- C2: response selection in `load_response` is keyed by the decimal
string form of the status code. When the responses map has an entry under
key `404`, resolving status 404 is determined by that entry alone (the
statement never mentions the `200` entry, so the result is independent of
it); when no entry exists under key `500`, resolving status 500 fails
with an error, with no fallback to a `default` key. -/
theorem c2_status_code_key (spec : Spec) (op : Operation)
    (rB : ObjOrRef Response)
    (h404 : hmGet op.responses (natToStr 404) = some rB)
    (h500 : hmGet op.responses (natToStr 500) = none) :
    load_response spec op 404 =
      (match resolveResponseM spec rB with
       | some r => .ok r
       | none => .error "Response not found") ∧
      load_response spec op 500 = .error "Response not found" := by
  constructor
  · simp [load_response, h404]
  · simp [load_response, h500]

/-- C2 witness: an operation with `200`, `404` and even a `default`
entry; status 404 resolves to the `404` response and status 500 fails
although a `default` entry is present. -/
theorem c2_status_code_key_witness :
    load_response emptySpec
        ⟨[("200".toList, .obj ⟨[]⟩),
          ("404".toList, .obj ⟨[("x".toList, ⟨none, none⟩)]⟩),
          ("default".toList, .obj ⟨[]⟩)]⟩ 404 =
      .ok ⟨[("x".toList, ⟨none, none⟩)]⟩ ∧
      load_response emptySpec
        ⟨[("200".toList, .obj ⟨[]⟩),
          ("404".toList, .obj ⟨[("x".toList, ⟨none, none⟩)]⟩),
          ("default".toList, .obj ⟨[]⟩)]⟩ 500 =
        .error "Response not found" := by
  have h := c2_status_code_key emptySpec
    ⟨[("200".toList, .obj ⟨[]⟩),
      ("404".toList, .obj ⟨[("x".toList, ⟨none, none⟩)]⟩),
      ("default".toList, .obj ⟨[]⟩)]⟩
    (.obj ⟨[("x".toList, ⟨none, none⟩)]⟩) (by decide) (by decide)
  exact ⟨h.1.trans (by rfl), h.2⟩

/-- A document whose component responses registry maps the key `a` to a
reference to `a` itself: a one-step reference cycle. -/
def cyclicSpec : Spec :=
  ⟨[], some ⟨[("a".toList, .ref "a".toList)], [], []⟩⟩

/-- C3: on the cyclic document, `extract_response` never terminates: for
every fuel bound the recursion is still running when the fuel runs out.
The source has no depth guard, so resolving this Response-or-Reference
recurses unboundedly instead of returning None as the claim requires. -/
theorem c3_cycle_diverges (fuel : Nat) :
    extract_response cyclicSpec fuel (.ref "a".toList) = none := by
  induction fuel with
  | zero => rfl
  | succ n ih =>
    have hlook : componentResponsesGet cyclicSpec "a".toList =
        some (.ref "a".toList) := by decide
    simp only [extract_response, hlook]
    exact ih

/-- Character-wise lexicographic strict order on strings: the order in
which the source's sorted example map (a BTreeMap keyed by String)
iterates its keys. -/
def strLt : Str → Str → Bool
  | [], [] => false
  | [], _ :: _ => true
  | _ :: _, [] => false
  | x :: xs, y :: ys =>
    if x < y then true else if x = y then strLt xs ys else false

/-- C5 counterexample: a collection whose two names are in strictly
increasing lexicographic order (first conjunct), so the listed order is
exactly the iteration order the source's sorted example map produces for
these names, and the matching `query:` entry precedes the exact-name
entry. For request path `zebra` (a name not beginning with `/`, so that
the exact key sorts after the `query:` key) with query `a=1`, the claim
says the exact-name entry (value 2) is returned, but the scan reaches
the query entry first and returns it (value 1) immediately. -/
theorem c5_counterexample :
    strLt "query:a=1".toList "zebra".toList = true ∧
      find_example_match "zebra".toList (from_request "a=1".toList)
          [.examples [("query:a=1".toList, .obj ⟨some 1⟩),
            ("zebra".toList, .obj ⟨some 2⟩)]] = some (.obj ⟨some 1⟩) ∧
      ¬ (find_example_match "zebra".toList (from_request "a=1".toList)
          [.examples [("query:a=1".toList, .obj ⟨some 1⟩),
            ("zebra".toList, .obj ⟨some 2⟩)]] = some (.obj ⟨some 2⟩)) := by
  decide

/-- Auxiliary: `scanEntries` returns the entry at position `i` whenever
that entry is an exact path match and no earlier entry is an exact or
query match, regardless of the remembered default. -/
theorem scanEntries_first_exact (p : Str) (reqParams : List (Str × Str)) :
    ∀ (es : List (Str × ObjOrRef ExampleObj)) (i : Nat)
      (hi : i < es.length) (dflt : Option (ObjOrRef ExampleObj)),
      (es.get ⟨i, hi⟩).1 = p →
      (∀ kv ∈ es.take i, kv.1 ≠ p ∧
        match_example reqParams kv.1 = false) →
      scanEntries p reqParams es dflt = .inl (es.get ⟨i, hi⟩).2 := by
  intro es
  induction es with
  | nil => intro i hi; simp at hi
  | cons kv rest ih =>
    intro i hi dflt hname hbefore
    cases i with
    | zero =>
      have hname' : kv.1 = p := hname
      show scanEntries p reqParams (kv :: rest) dflt = .inl kv.2
      simp [scanEntries, hname']
    | succ j =>
      obtain ⟨hne, hqm⟩ := hbefore kv (by simp [List.take_succ_cons])
      have hname' : (rest.get ⟨j, Nat.lt_of_succ_lt_succ hi⟩).1 = p := hname
      show scanEntries p reqParams (kv :: rest) dflt =
        .inl (rest.get ⟨j, Nat.lt_of_succ_lt_succ hi⟩).2
      simp only [scanEntries, if_neg hne, hqm, Bool.false_eq_true,
        if_false]
      exact ih j (Nat.lt_of_succ_lt_succ hi) _ hname'
        (fun kv' hkv' => hbefore kv' (by simp [List.take_succ_cons, hkv']))

/-- C5 amended: entries are scanned in collection iteration order and the
first entry that is an exact path match or a structured query match is
returned immediately. Hence the exact-name entry is returned whenever no
matching query entry precedes it; a matching query entry that occurs
earlier in iteration order is returned instead (see the
counterexample). -/
theorem c5_first_match_wins (p : Str) (reqParams : List (Str × Str))
    (es : List (Str × ObjOrRef ExampleObj)) (i : Nat) (hi : i < es.length)
    (hname : (es.get ⟨i, hi⟩).1 = p)
    (hbefore : ∀ kv ∈ es.take i, kv.1 ≠ p ∧
      match_example reqParams kv.1 = false) :
    find_example_match p reqParams [.examples es] =
      some (es.get ⟨i, hi⟩).2 := by
  unfold find_example_match findLoop
  rw [scanEntries_first_exact p reqParams es i hi none hname hbefore]

/-- C5 witness: the exact-name entry sits at position 1 after a
non-matching entry and is returned. -/
theorem c5_first_match_wins_witness :
    find_example_match "/pets".toList (from_request "".toList)
        [.examples [("x".toList, .obj ⟨some 9⟩),
          ("/pets".toList, .obj ⟨some 2⟩)]] = some (.obj ⟨some 2⟩) := by
  have h := c5_first_match_wins "/pets".toList (from_request "".toList)
    [("x".toList, .obj ⟨some 9⟩), ("/pets".toList, .obj ⟨some 2⟩)]
    1 (by decide) (by decide) (by decide)
  exact h

/-- C6 counterexample: for the collection containing only an entry named
`default` and the request path `default`, the selector does return the
default entry (the left side of the claimed equivalence holds) even
though an entry name equals the request path (the right side fails): the
entry is returned as an exact path match, so the claimed equivalence is
false at this input. -/
theorem c6_counterexample :
    ¬ ((find_example_match "default".toList (from_request "".toList)
          [.examples [("default".toList, .obj ⟨some 7⟩)]] =
            some (.obj ⟨some 7⟩)) ↔
        ((∀ kv ∈ [("default".toList,
            (.obj ⟨some 7⟩ : ObjOrRef ExampleObj))],
            kv.1 ≠ "default".toList) ∧
          (∀ kv ∈ [("default".toList,
              (.obj ⟨some 7⟩ : ObjOrRef ExampleObj))],
              match_example (from_request "".toList) kv.1 = false))) := by
  decide

/-- Auxiliary: a closed form for `scanEntries`. It returns the first
entry that is an exact or query match; with no such entry it ends with
the default accumulator folded over all entries named `default`. -/
theorem scanEntries_eq_find (p : Str) (reqParams : List (Str × Str)) :
    ∀ (es : List (Str × ObjOrRef ExampleObj))
      (dflt : Option (ObjOrRef ExampleObj)),
      scanEntries p reqParams es dflt =
        match es.find? (fun kv => decide (kv.1 = p) ||
            match_example reqParams kv.1) with
        | some kv => .inl kv.2
        | none => .inr (es.foldl
            (fun d kv => if kv.1 = defaultName then some kv.2 else d) dflt) := by
  intro es
  induction es with
  | nil => intro dflt; rfl
  | cons kv rest ih =>
    intro dflt
    rw [List.find?_cons]
    by_cases h1 : kv.1 = p
    · simp [scanEntries, h1]
    · by_cases h2 : match_example reqParams kv.1 = true
      · simp [scanEntries, h1, h2]
      · have h2' : match_example reqParams kv.1 = false := by
          simpa using h2
        simp only [scanEntries, if_neg h1, h2', Bool.false_eq_true,
          if_false, h1, decide_eq_true_eq, Bool.or_false, decide_False,
          List.foldl_cons]
        exact ih _

/-- C6 amended: closed form of the selector over one collection. The
result is the first exact-or-query matching entry when one exists;
otherwise it is the last entry literally named `default` when one exists,
and None when none does. So the default entry is returned through the
fallback exactly when no entry matches exactly or by query; the one
exception to the claimed equivalence is a request path literally equal to
`default`, where the default entry can be returned as an exact path
match (see the counterexample). -/
theorem c6_default_last_resort (p : Str) (reqParams : List (Str × Str))
    (es : List (Str × ObjOrRef ExampleObj)) :
    find_example_match p reqParams [.examples es] =
      match es.find? (fun kv => decide (kv.1 = p) ||
          match_example reqParams kv.1) with
      | some kv => some kv.2
      | none => es.foldl
          (fun d kv => if kv.1 = defaultName then some kv.2 else d) none := by
  unfold find_example_match findLoop
  rw [scanEntries_eq_find]
  cases es.find? (fun kv => decide (kv.1 = p) ||
      match_example reqParams kv.1) with
  | none => rfl
  | some kv => rfl

/-- C6 witness: for the collection with an exact entry `/pets` and a
`default` entry, request path `/pets` resolves the exact entry, never the
default one. -/
theorem c6_default_last_resort_witness :
    find_example_match "/pets".toList (from_request "".toList)
        [.examples [("/pets".toList, .obj ⟨some 1⟩),
          ("default".toList, .obj ⟨some 2⟩)]] = some (.obj ⟨some 1⟩) := by
  have h := c6_default_last_resort "/pets".toList (from_request "".toList)
    [("/pets".toList, .obj ⟨some 1⟩), ("default".toList, .obj ⟨some 2⟩)]
  exact h.trans (by decide)

/-- A document whose only response carries a single literal example value
(the `Example` variant of MediaTypeExamples) and no named collection. -/
def singleExampleSpec : Spec :=
  ⟨[("/p".toList,
    { get := some ⟨[("200".toList,
        .obj ⟨[("application/json".toList,
          ⟨none, some (.single 5)⟩)]⟩)]⟩ })], none⟩

/-- C7 counterexample: the claim says the selector returns the single
literal example value directly, so the pipeline should yield value 5;
instead the `_ => {}` arm of `find_example_match` skips the `Example`
variant and the pipeline yields None. -/
theorem c7_counterexample :
    getExampleF singleExampleSpec 1 "/p".toList "get".toList "".toList =
        some none ∧
      ¬ (getExampleF singleExampleSpec 1 "/p".toList "get".toList
          "".toList = some (some 5)) := by
  decide

/-- C7 amended: a MediaType holding a single literal example contributes
nothing to example selection: the selector skips the `Example` variant
entirely, so the result over a list starting with a single literal
example equals the result over the remaining list, and the literal value
is never returned. -/
theorem c7_single_example_skipped (v : Val) (rest : List MediaTypeExamples)
    (p : Str) (reqParams : List (Str × Str)) :
    find_example_match p reqParams (.single v :: rest) =
      find_example_match p reqParams rest := rfl

/-- C8: on a response whose content map has no entry for the requested
content type, `load_example` (src/spec.rs) aborts with the panic
`Content not found` instead of returning None; the openapi-module
selector on the same situation (a matched path whose response has an
empty content map) degrades to None as the claim demands. -/
theorem c8_missing_content_type :
    load_example emptySpec ⟨[]⟩ "application/json".toList =
        .error "Content not found" ∧
      getExampleF ⟨[("/p".toList,
          { get := some ⟨[("200".toList, .obj ⟨[]⟩)]⟩ })], none⟩ 1
        "/p".toList "get".toList "".toList = some none :=
  ⟨rfl, by decide⟩

/-- C9: whenever the pipeline of `Spec::get_example` selects a named
example whose resolution through the component registry fails, the
overall result is None: the `.ok()` conversion turns the resolution error
into absence and the final projection propagates it. -/
theorem c9_broken_example_ref (spec : Spec) (fuel : Nat)
    (path method queryString : Str) (reqParams : List (Str × Str))
    (pitem : PathItem) (op : Operation) (rs : List (ObjOrRef Response))
    (mtes : List MediaTypeExamples) (ex : ObjOrRef ExampleObj)
    (h1 : from_requestO queryString = some reqParams)
    (h2 : load_path path spec = some pitem)
    (h3 : load_method (lowerStr method) pitem = some op)
    (h4 : load_responses op = some rs)
    (h5 : load_examples spec mediaTypeJson fuel rs = some mtes)
    (h6 : find_example_match path reqParams mtes = some ex)
    (h7 : resolveExampleM spec ex = none) :
    getExampleF spec fuel path method queryString = some none := by
  simp [getExampleF, h1, h2, h3, h4, h5, h6, h7]

/-- A MediaType whose named example collection holds one reference to a
registry entry that does not exist. -/
def brokenMt : MediaType :=
  ⟨none, some (.examples [("default".toList, .ref "missing".toList)])⟩

/-- The response carrying `brokenMt` under `application/json`. -/
def brokenResp : Response := ⟨[("application/json".toList, brokenMt)]⟩

/-- The operation carrying `brokenResp` under status `200`. -/
def brokenOp : Operation := ⟨[("200".toList, .obj brokenResp)]⟩

/-- A document whose only example is a broken reference: the components
registry is present but empty. -/
def brokenRefSpec : Spec :=
  ⟨[("/p".toList, { get := some brokenOp })], some ⟨[], [], []⟩⟩

/-- C9 witness: on the broken-reference document the pipeline returns
None rather than an error. -/
theorem c9_broken_example_ref_witness :
    getExampleF brokenRefSpec 1 "/p".toList "get".toList "".toList =
      some none :=
  c9_broken_example_ref brokenRefSpec 1 "/p".toList "get".toList
    "".toList (from_request "".toList) { get := some brokenOp } brokenOp
    [.obj brokenResp]
    [.examples [("default".toList, .ref "missing".toList)]]
    (.ref "missing".toList) (by decide) (by decide) (by decide)
    (by decide) (by decide) (by decide) (by decide)

/-- Acyclicity of the component-response reference graph: some ranking of
reference names strictly decreases along every registry edge (the
standard topological-order characterization of a finite acyclic
graph). -/
def Acyclic (spec : Spec) : Prop :=
  ∃ rank : Str → Nat, ∀ k q,
    componentResponsesGet spec k = some (.ref q) → rank q < rank k

/-- Recursion measure for `extract_response` under a ranking. -/
def refMeasure (rank : Str → Nat) : ObjOrRef Response → Nat
  | .obj _ => 0
  | .ref p => rank p + 1

/-- Auxiliary: with fuel above the measure, `extract_response`
terminates. -/
theorem extract_response_total (spec : Spec) (rank : Str → Nat)
    (hrank : ∀ k q, componentResponsesGet spec k = some (.ref q) →
      rank q < rank k) :
    ∀ (n : Nat) (r : ObjOrRef Response), refMeasure rank r < n →
      ∃ res, extract_response spec n r = some res := by
  intro n
  induction n with
  | zero => intro r h; omega
  | succ m ih =>
    intro r h
    cases r with
    | obj o => exact ⟨some o, rfl⟩
    | ref p =>
      cases hc : componentResponsesGet spec p with
      | none => exact ⟨none, by simp [extract_response, hc]⟩
      | some next =>
        have hlt : refMeasure rank next < m := by
          cases next with
          | obj o =>
            simp only [refMeasure] at h ⊢
            omega
          | ref q =>
            have := hrank p q hc
            simp only [refMeasure] at h ⊢
            omega
        obtain ⟨res, hres⟩ := ih next hlt
        exact ⟨res, by simp [extract_response, hc, hres]⟩

/-- Auxiliary: when every extraction terminates, `load_examples`
terminates. -/
theorem load_examples_total (spec : Spec) (mt : Str) (fuel : Nat) :
    ∀ rs : List (ObjOrRef Response),
      (∀ r ∈ rs, ∃ res, extract_response spec fuel r = some res) →
      ∃ mtes, load_examples spec mt fuel rs = some mtes := by
  intro rs
  induction rs with
  | nil => intro _; exact ⟨[], rfl⟩
  | cons r rest ih =>
    intro h
    obtain ⟨res, hres⟩ := h r (List.mem_cons_self _ _)
    obtain ⟨es, hes⟩ := ih fun x hx => h x (List.mem_cons_of_mem _ hx)
    cases hcontrib : (res.bind fun resp => hmGet resp.content mt).bind
        (fun content => content.examples) with
    | none => exact ⟨es, by simp [load_examples, hres, hes, hcontrib]⟩
    | some m => exact ⟨m :: es, by simp [load_examples, hres, hes, hcontrib]⟩

/-- Largest element of a list of naturals, zero for the empty list. -/
def listMax : List Nat → Nat
  | [] => 0
  | x :: xs => max x (listMax xs)

theorem le_listMax : ∀ (l : List Nat) (x : Nat), x ∈ l → x ≤ listMax l := by
  intro l
  induction l with
  | nil => intro x hx; simp at hx
  | cons y ys ih =>
    intro x hx
    cases hx with
    | head => simp [listMax]
    | tail _ hmem => exact le_trans (ih x hmem) (by simp [listMax])

/-- C10: over any document with an acyclic component-response reference
graph, `Spec::get_example` is total: for every request path, method
string and query string there is a fuel bound within which the pipeline
terminates and produces an Option value (so every failing stage yields
None, and neither the query-string parsing nor the reference extraction
aborts). -/
theorem c10_get_example_total (spec : Spec) (hac : Acyclic spec)
    (path method queryString : Str) :
    ∃ fuel r, getExampleF spec fuel path method queryString = some r := by
  obtain ⟨rank, hrank⟩ := hac
  obtain ⟨reqParams, h1⟩ := from_requestO_isSome queryString
  cases h2 : load_path path spec with
  | none => exact ⟨0, none, by simp [getExampleF, h1, h2]⟩
  | some pitem =>
    cases h3 : load_method (lowerStr method) pitem with
    | none => exact ⟨0, none, by simp [getExampleF, h1, h2, h3]⟩
    | some op =>
      refine ⟨listMax ((op.responses.map fun kv => kv.2).map
        (refMeasure rank)) + 1, ?_⟩
      have hext : ∀ r ∈ op.responses.map fun kv => kv.2,
          ∃ res, extract_response spec
            (listMax ((op.responses.map fun kv => kv.2).map
              (refMeasure rank)) + 1) r = some res := by
        intro r hrmem
        apply extract_response_total spec rank hrank
        have hle := le_listMax ((op.responses.map fun kv => kv.2).map
          (refMeasure rank)) (refMeasure rank r)
          (List.mem_map_of_mem _ hrmem)
        omega
      obtain ⟨mtes, h5⟩ := load_examples_total spec mediaTypeJson _ _ hext
      simp only [List.map_map] at h5
      cases h6 : find_example_match path reqParams mtes with
      | none =>
        exact ⟨none, by simp [getExampleF, h1, h2, h3, load_responses,
          h5, h6]⟩
      | some ex =>
        cases h7 : resolveExampleM spec ex with
        | none =>
          exact ⟨none, by simp [getExampleF, h1, h2, h3, load_responses,
            h5, h6, h7]⟩
        | some e =>
          exact ⟨e.value, by simp [getExampleF, h1, h2, h3,
            load_responses, h5, h6, h7]⟩

/-- C10 witness: the empty document is acyclic and resolution of a
request over it terminates with an Option. -/
theorem c10_get_example_total_witness :
    ∃ fuel r, getExampleF emptySpec fuel "/p".toList "get".toList
      "".toList = some r :=
  c10_get_example_total emptySpec
    ⟨fun _ => 0, fun k q h => by
      simp [componentResponsesGet, emptySpec] at h⟩
    "/p".toList "get".toList "".toList

end OpenapiMocker

